import Mathlib

/-!
Verification of the C885A Prometheus exporter's metric-collection pipeline.

The Python source (`c885a_prometheus_exporter.py`) is shallowly embedded here:
strings are lists of characters, Python `str.replace` / `in` / `endswith` /
`startswith` are modelled by executable Lean functions with the same semantics,
and the collection cycle (`collect_metrics`) is modelled as a pure function
from the outcomes of the network fetches to the list of gauge writes it
performs.  Network I/O is abstracted as `Except FetchError` outcomes supplied
as inputs; numeric readings are modelled as integers (no claim concerns
floating-point arithmetic).
-/

namespace C885A

/-- Python strings are modelled as lists of characters. -/
abbrev Str := List Char

/-- Python `pat in s` (substring containment), scanning every position. -/
def containsSub (pat : Str) : Str → Bool
  | [] => pat.isEmpty
  | c :: rest => pat.isPrefixOf (c :: rest) || containsSub pat rest

/-- Fuel-driven worker for Python `s.replace(pat, rep)`: replaces every
non-overlapping occurrence of `pat`, scanning left to right.  The fuel makes
the recursion structural; `pyReplace` supplies fuel `s.length`, which is
always sufficient because each step consumes at least one character. -/
def pyReplaceF (pat rep : Str) : Nat → Str → Str
  | 0, s => s
  | _ + 1, [] => []
  | f + 1, c :: rest =>
    if !pat.isEmpty && pat.isPrefixOf (c :: rest) then
      rep ++ pyReplaceF pat rep f (List.drop pat.length (c :: rest))
    else
      c :: pyReplaceF pat rep f rest

/-- Python `s.replace(pat, rep)` (for the non-empty patterns the source uses). -/
def pyReplace (s pat rep : Str) : Str :=
  pyReplaceF pat rep s.length s

/-- Python `s.split("/")[-1]`: the characters after the last `'/'`
(the whole string when no `'/'` occurs). -/
def lastSegment (s : Str) : Str :=
  (s.reverse.takeWhile (fun c => c != '/')).reverse

/-- The three errors a sensor fetch can raise in the source
(`requests` network error, `raise_for_status`, JSON decoding). -/
inductive FetchError
  | network
  | badStatus
  | malformedBody
deriving DecidableEq

/-- The dict `{"Name": ..., "Reading": ...}` returned by the per-sensor query
functions; `reading` is `none` when the JSON carries no reading field. -/
structure SensorResult where
  name : Str
  reading : Option Int
deriving DecidableEq

/-- One entry of the thermal response's `Fans` array: its `MemberId`
(`none` when the field is missing) and its `Reading`. -/
structure FanEntry where
  memberId : Option Str
  reading : Option Int
deriving DecidableEq

/-- One entry of the thermal response's `Temperatures` array: its `MemberId`
(`none` when the field is missing) and its `ReadingCelsius`. -/
structure TempEntry where
  memberId : Option Str
  readingCelsius : Option Int
deriving DecidableEq

/-- Source `parse_psu_name` (lines 90-95): rewrite the raw PSU power marker to
a tray-qualified name, via Python `str.replace`. -/
def parse_psu_name (member_id : Str) (is_gpu : Bool) : Str :=
  if is_gpu then
    pyReplace member_id "power_PWR_PDB_PSU".data "GPU_TRAY_PSU".data
  else
    pyReplace member_id "power_PWR_MB_PSU".data "CPU_TRAY_PSU".data

/-- Source `parse_fan_name` (lines 97-104): drop `SPD_`, then rewrite a
fan-position suffix, each via Python `str.replace`. -/
def parse_fan_name (member_id : Str) : Str :=
  let m := pyReplace member_id "SPD_".data []
  if List.isSuffixOf "_F".data m then pyReplace m "_F".data " Front".data
  else if List.isSuffixOf "_R".data m then pyReplace m "_R".data " Rear".data
  else m

/-- Source `parse_temp_name` (lines 117-124): rewrite PSU temperature markers
to tray-qualified names. -/
def parse_temp_name (member_id : Str) : Str :=
  if containsSub "TEMP_PDB_PSU".data member_id then
    pyReplace member_id "TEMP_PDB_PSU".data "TEMP_GPU_TRAY_PSU".data
  else if containsSub "TEMP_MB_PSU".data member_id then
    pyReplace member_id "TEMP_MB_PSU".data "TEMP_CPU_TRAY_PSU".data
  else member_id

/-- Source `query_psu` (lines 68-80) with the HTTP layer abstracted: the
`Reading` field extracted from the response body is supplied as `reading`
(fetch failures are modelled at the future level, see `collect_metrics`). -/
def query_psu (psu_url : Str) (is_gpu : Bool) (reading : Option Int) : SensorResult :=
  { name := parse_psu_name (lastSegment psu_url) is_gpu, reading := reading }

/-- Source `query_fan` (lines 106-115): a missing `MemberId` defaults to
`"Unknown"`. -/
def query_fan (fan_data : FanEntry) : SensorResult :=
  { name := parse_fan_name (fan_data.memberId.getD "Unknown".data)
    reading := fan_data.reading }

/-- Source `query_temp` (lines 126-135): a missing `MemberId` defaults to
`"Unknown"`. -/
def query_temp (temp_data : TempEntry) : SensorResult :=
  { name := parse_temp_name (temp_data.memberId.getD "Unknown".data)
    reading := temp_data.readingCelsius }

/-- Source `initialize_psu_endpoints` (lines 51-66), the member filtering of
lines 60-61: each member is represented by its `@odata.id` string; the GPU
group keeps members containing `power_PWR_PDB_`, the CPU group those
containing `PWR_MB_PSU`. -/
def discover_psu_endpoints (members : List Str) : List Str × List Str :=
  (members.filter (fun m => containsSub "power_PWR_PDB_".data m),
   members.filter (fun m => containsSub "PWR_MB_PSU".data m))

/-- The three gauges defined at lines 41-43. -/
inductive GaugeKind
  | power
  | fan
  | temp
deriving DecidableEq

/-- One `gauge.labels(name).set(value)` call performed by the collector. -/
structure GaugeWrite where
  kind : GaugeKind
  label : Str
  value : Int
deriving DecidableEq

/-- The classification condition of line 169:
`('GPU_TRAY_PSU' in name or 'CPU_TRAY_PSU' in name) and 'TEMP' not in name`. -/
def isPsuPowerName (name : Str) : Bool :=
  (containsSub "GPU_TRAY_PSU".data name || containsSub "CPU_TRAY_PSU".data name)
    && !containsSub "TEMP".data name

/-- The body of the result-processing loop (source lines 166-179): given one
completed sensor result, the gauge writes it performs. -/
def processResult (r : SensorResult) : List GaugeWrite :=
  match r.reading with
  | none => []
  | some v =>
    if isPsuPowerName r.name then
      [⟨GaugeKind.power, r.name, v⟩]
    else if containsSub "FAN".data r.name then
      [⟨GaugeKind.fan, r.name, v⟩]
    else if containsSub "TEMP".data r.name
        || containsSub "TEMP_CPU_TRAY_PSU".data r.name then
      [⟨GaugeKind.temp, r.name, v⟩]
    else if containsSub "power_CPU_TRAY_PSU".data r.name then
      [⟨GaugeKind.power, pyReplace r.name "power_".data [], v⟩]
    else []

/-- Processing of one future in the `as_completed` loop (source lines
164-181): a raised exception is caught and logged, contributing no write. -/
def processFuture (r : Except FetchError SensorResult) : List GaugeWrite :=
  match r with
  | Except.error _ => []
  | Except.ok s => processResult s

/-- The gauge writes contributed by the PSU futures of one cycle. -/
def psuWrites (psuFutures : List (Except FetchError SensorResult)) : List GaugeWrite :=
  (psuFutures.map processFuture).flatten

/-- Source `collect_metrics` (lines 137-181).  The thermal fetch outcome and
the PSU future outcomes are inputs: a thermal failure propagates out before
any future is processed (line 141 precedes the executor block); fan and
temperature futures never raise (they run on data already fetched).  The
result is the list of gauge writes of the cycle, in processing order. -/
def collect_metrics (thermal : Except FetchError (List FanEntry × List TempEntry))
    (psuFutures : List (Except FetchError SensorResult)) :
    Except FetchError (List GaugeWrite) :=
  match thermal with
  | Except.error e => Except.error e
  | Except.ok (fans, temps) =>
    let futures := psuFutures
      ++ fans.map (fun f => Except.ok (query_fan f))
      ++ temps.map (fun t => Except.ok (query_temp t))
    Except.ok ((futures.map processFuture).flatten)

/-- A label-indexed gauge: association list from label to latest value. -/
def setLabel : List (Str × Int) → Str → Int → List (Str × Int)
  | [], n, v => [(n, v)]
  | (m, w) :: rest, n, v =>
    if m = n then (n, v) :: rest else (m, w) :: setLabel rest n v

/-- The Gauge Store: the three label-indexed gauges of lines 41-43. -/
structure GaugeStore where
  power : List (Str × Int)
  fan : List (Str × Int)
  temp : List (Str × Int)
deriving DecidableEq

/-- Apply one gauge write to the store. -/
def applyWrite (st : GaugeStore) (w : GaugeWrite) : GaugeStore :=
  match w.kind with
  | GaugeKind.power => { st with power := setLabel st.power w.label w.value }
  | GaugeKind.fan => { st with fan := setLabel st.fan w.label w.value }
  | GaugeKind.temp => { st with temp := setLabel st.temp w.label w.value }

/-- Apply a cycle's writes to the store, in order. -/
def applyWrites (st : GaugeStore) (ws : List GaugeWrite) : GaugeStore :=
  ws.foldl applyWrite st

/-- One collection cycle acting on a Gauge Store: on a cycle-level failure the
error propagates and the caller's store is untouched. -/
def runCycle (thermal : Except FetchError (List FanEntry × List TempEntry))
    (psuFutures : List (Except FetchError SensorResult))
    (st : GaugeStore) : Except FetchError GaugeStore :=
  match collect_metrics thermal psuFutures with
  | Except.error e => Except.error e
  | Except.ok ws => Except.ok (applyWrites st ws)

/-! ### Helper lemmas about the string model -/

/-- Boolean prefix test characterized by an existential split. -/
theorem isPrefixOf_eq_true_iff (p s : Str) :
    p.isPrefixOf s = true ↔ ∃ u, s = p ++ u := by
  induction p generalizing s with
  | nil => simp [List.isPrefixOf]
  | cons a p ih =>
    cases s with
    | nil => simp [List.isPrefixOf]
    | cons b s =>
      simp only [List.isPrefixOf, Bool.and_eq_true, beq_iff_eq, ih, List.cons_append]
      constructor
      · rintro ⟨rfl, u, rfl⟩; exact ⟨u, rfl⟩
      · rintro ⟨u, h⟩
        injection h with h1 h2
        exact ⟨h1.symm, u, h2⟩

/-- Substring containment characterized by an existential split. -/
theorem containsSub_eq_true_iff (pat s : Str) :
    containsSub pat s = true ↔ ∃ t u, s = t ++ pat ++ u := by
  induction s with
  | nil =>
    simp only [containsSub, List.isEmpty_iff]
    constructor
    · rintro rfl; exact ⟨[], [], rfl⟩
    · rintro ⟨t, u, h⟩
      have hl := congrArg List.length h
      simp [List.length_append] at hl
      exact List.length_eq_zero.mp (by omega)
  | cons c rest ih =>
    simp only [containsSub, Bool.or_eq_true, isPrefixOf_eq_true_iff, ih]
    constructor
    · rintro (⟨u, h⟩ | ⟨t, u, h⟩)
      · exact ⟨[], u, by simpa using h⟩
      · exact ⟨c :: t, u, by simp [h, List.append_assoc]⟩
    · rintro ⟨t, u, h⟩
      cases t with
      | nil => exact Or.inl ⟨u, by simpa using h⟩
      | cons a t' =>
        simp only [List.cons_append] at h
        injection h with h1 h2
        exact Or.inr ⟨t', u, h2⟩

/-- A string containing `x ++ p ++ y` also contains `p`. -/
theorem containsSub_of_append (x p y s : Str)
    (h : containsSub (x ++ p ++ y) s = true) : containsSub p s = true := by
  rcases (containsSub_eq_true_iff _ _).mp h with ⟨t, u, rfl⟩
  exact (containsSub_eq_true_iff _ _).mpr
    ⟨t ++ x, y ++ u, by simp [List.append_assoc]⟩

/-- Every character of a contained pattern occurs in the string. -/
theorem mem_of_containsSub {pat s : Str} {c : Char}
    (h : containsSub pat s = true) (hc : c ∈ pat) : c ∈ s := by
  rcases (containsSub_eq_true_iff _ _).mp h with ⟨t, u, rfl⟩
  exact List.mem_append.mpr (Or.inl (List.mem_append.mpr (Or.inr hc)))

/-- A pattern with a character missing from the string is not contained. -/
theorem containsSub_eq_false {pat s : Str} {c : Char}
    (hc : c ∈ pat) (hs : c ∉ s) : containsSub pat s = false := by
  cases h : containsSub pat s with
  | false => rfl
  | true => exact absurd (mem_of_containsSub h hc) hs

/-- Unfolding of the replacement worker on an empty string. -/
theorem pyReplaceF_nil (pat rep : Str) (f : Nat) : pyReplaceF pat rep f [] = [] := by
  cases f <;> rfl

/-- Unfolding of the replacement worker on a cons cell with fuel to spend. -/
theorem pyReplaceF_cons (pat rep : Str) (f : Nat) (c : Char) (rest : Str) :
    pyReplaceF pat rep (f + 1) (c :: rest) =
      if !pat.isEmpty && pat.isPrefixOf (c :: rest) then
        rep ++ pyReplaceF pat rep f (List.drop pat.length (c :: rest))
      else c :: pyReplaceF pat rep f rest := rfl

/-- Replacement is the identity when the pattern does not occur. -/
theorem pyReplaceF_no_occurrence (pat rep : Str) (f : Nat) (s : Str)
    (h : containsSub pat s = false) : pyReplaceF pat rep f s = s := by
  induction f generalizing s with
  | zero => rfl
  | succ f ih =>
    cases s with
    | nil => rfl
    | cons c rest =>
      simp only [containsSub, Bool.or_eq_false_iff] at h
      simp [pyReplaceF_cons, h.1, ih rest h.2]

/-- Python `s.replace` is the identity when the pattern does not occur. -/
theorem pyReplace_no_occurrence (s pat rep : Str)
    (h : containsSub pat s = false) : pyReplace s pat rep = s :=
  pyReplaceF_no_occurrence pat rep s.length s h

/-- One replacement step at a head occurrence of the pattern. -/
theorem pyReplaceF_head (pat t rep : Str) (hp : pat ≠ []) (f : Nat) :
    pyReplaceF pat rep (f + 1) (pat ++ t) = rep ++ pyReplaceF pat rep f t := by
  obtain ⟨c, p, rfl⟩ := List.exists_cons_of_ne_nil hp
  have hpre : (c :: p).isPrefixOf ((c :: p) ++ t) = true :=
    (isPrefixOf_eq_true_iff _ _).mpr ⟨t, rfl⟩
  simp only [List.cons_append] at hpre
  simp [pyReplaceF_cons, hpre, List.drop_left']

/-- Replacing `pat` in `pat ++ d` when `pat` does not occur in `d`. -/
theorem pyReplace_append_of_no_occurrence (pat d rep : Str) (hp : pat ≠ [])
    (hd : containsSub pat d = false) :
    pyReplace (pat ++ d) pat rep = rep ++ d := by
  have hpos : 0 < pat.length := List.length_pos.mpr hp
  have hl : (pat ++ d).length = (pat.length - 1 + d.length) + 1 := by
    simp only [List.length_append]; omega
  rw [pyReplace, hl, pyReplaceF_head pat d rep hp,
    pyReplaceF_no_occurrence _ _ _ _ hd]

/-- Replacing a pattern occurring exactly as the tail of the string, when the
pattern's first character does not occur in the front part. -/
theorem pyReplaceF_tail (c : Char) (p t rep : Str) (f : Nat) (hc : c ∉ t)
    (hf : t.length + (c :: p).length ≤ f + 1) :
    pyReplaceF (c :: p) rep (f + 1) (t ++ (c :: p)) = t ++ rep := by
  induction t generalizing f with
  | nil =>
    have h0 : ([] : Str) ++ (c :: p) = (c :: p) ++ [] := by simp
    rw [h0, pyReplaceF_head (c :: p) [] rep (by simp) f, pyReplaceF_nil]
    simp
  | cons a t' ih =>
    rw [List.mem_cons, not_or] at hc
    have hca : (c == a) = false := beq_eq_false_iff_ne.mpr hc.1
    cases f with
    | zero =>
      exfalso
      simp only [List.length_cons] at hf
      omega
    | succ f' =>
      have hnp : (c :: p).isPrefixOf (a :: (t' ++ (c :: p))) = false := by
        simp [List.isPrefixOf, hca]
      simp only [List.cons_append, pyReplaceF_cons, hnp, Bool.and_false,
        if_neg, Bool.false_eq_true, not_false_eq_true]
      rw [ih f' hc.2 (by simp only [List.length_cons] at hf ⊢; omega)]

/-- Replacing the tail occurrence via `pyReplace`. -/
theorem pyReplace_append_tail (c : Char) (p t rep : Str) (hc : c ∉ t) :
    pyReplace (t ++ (c :: p)) (c :: p) rep = t ++ rep := by
  have hl : (t ++ (c :: p)).length = (t.length + p.length) + 1 := by
    simp only [List.length_append, List.length_cons]; omega
  rw [pyReplace, hl]
  exact pyReplaceF_tail c p t rep (t.length + p.length) hc
    (by simp only [List.length_cons]; omega)

/-- A name containing `TEMP_CPU_TRAY_PSU` contains `TEMP`. -/
theorem containsSub_temp_of_tempCpu {name : Str}
    (h : containsSub "TEMP_CPU_TRAY_PSU".data name = true) :
    containsSub "TEMP".data name = true := by
  have e : "TEMP_CPU_TRAY_PSU".data = [] ++ "TEMP".data ++ "_CPU_TRAY_PSU".data := rfl
  exact containsSub_of_append _ _ _ _ (e ▸ h)

/-- A name containing `power_CPU_TRAY_PSU` contains `CPU_TRAY_PSU`. -/
theorem containsSub_cpu_of_powerCpu {name : Str}
    (h : containsSub "power_CPU_TRAY_PSU".data name = true) :
    containsSub "CPU_TRAY_PSU".data name = true := by
  have e : "power_CPU_TRAY_PSU".data = "power_".data ++ "CPU_TRAY_PSU".data ++ [] := rfl
  exact containsSub_of_append _ _ _ _ (e ▸ h)

/-! ### Claim theorems -/

/-- Claim C1: for every completed reading with a present value, routing
follows the normalized name: a tray-PSU name without `TEMP` goes to the power
gauge, otherwise a `FAN`-bearing name to the fan gauge, otherwise a
`TEMP`-bearing name to the temperature gauge, and a name matching none of the
three patterns updates no gauge (the late `power_CPU_TRAY_PSU` branch is
unreachable there).  In particular `GPU_TRAY_PSU2` routes to power,
`FAN3 Front` to fan, and `TEMP_GPU_TRAY_PSU1` to temperature. -/
theorem classification_routes (name : Str) (v : Int) :
    processFuture (Except.ok ⟨name, some v⟩) =
      (if (containsSub "GPU_TRAY_PSU".data name
            || containsSub "CPU_TRAY_PSU".data name)
          && !containsSub "TEMP".data name then [⟨GaugeKind.power, name, v⟩]
       else if containsSub "FAN".data name then [⟨GaugeKind.fan, name, v⟩]
       else if containsSub "TEMP".data name then [⟨GaugeKind.temp, name, v⟩]
       else []) ∧
    processFuture (Except.ok ⟨"GPU_TRAY_PSU2".data, some v⟩) =
      [⟨GaugeKind.power, "GPU_TRAY_PSU2".data, v⟩] ∧
    processFuture (Except.ok ⟨"FAN3 Front".data, some v⟩) =
      [⟨GaugeKind.fan, "FAN3 Front".data, v⟩] ∧
    processFuture (Except.ok ⟨"TEMP_GPU_TRAY_PSU1".data, some v⟩) =
      [⟨GaugeKind.temp, "TEMP_GPU_TRAY_PSU1".data, v⟩] := by
  refine ⟨?_, rfl, rfl, rfl⟩
  by_cases hA : ((containsSub "GPU_TRAY_PSU".data name
      || containsSub "CPU_TRAY_PSU".data name)
      && !containsSub "TEMP".data name) = true
  · simp [processFuture, processResult, isPsuPowerName, hA]
  · rw [Bool.not_eq_true] at hA
    by_cases hF : containsSub "FAN".data name = true
    · simp [processFuture, processResult, isPsuPowerName, hA, hF]
    · rw [Bool.not_eq_true] at hF
      by_cases hT : containsSub "TEMP".data name = true
      · simp [processFuture, processResult, isPsuPowerName, hA, hF, hT]
      · rw [Bool.not_eq_true] at hT
        have hTC : containsSub "TEMP_CPU_TRAY_PSU".data name = false := by
          cases h : containsSub "TEMP_CPU_TRAY_PSU".data name with
          | false => rfl
          | true => exact absurd (containsSub_temp_of_tempCpu h) (by simp [hT])
        have hC : containsSub "CPU_TRAY_PSU".data name = false := by
          simp [hT] at hA
          exact hA.2
        have hPC : containsSub "power_CPU_TRAY_PSU".data name = false := by
          cases h : containsSub "power_CPU_TRAY_PSU".data name with
          | false => rfl
          | true => exact absurd (containsSub_cpu_of_powerCpu h) (by simp [hC])
        simp [processFuture, processResult, isPsuPowerName, hA, hF, hT, hTC, hPC]

/-- Claim C2 (code bug): the `power_` stripping branch for stray
`power_CPU_TRAY_PSU` names is unreachable — such a name already contains
`CPU_TRAY_PSU`, so the first branch writes the power gauge keyed by the
prefixed name; the corrected key is never used. -/
theorem stray_power_prefix_kept (name : Str) (v : Int)
    (h1 : containsSub "power_CPU_TRAY_PSU".data name = true)
    (h2 : containsSub "TEMP".data name = false) :
    processFuture (Except.ok ⟨name, some v⟩) = [⟨GaugeKind.power, name, v⟩] ∧
    processFuture (Except.ok ⟨"power_CPU_TRAY_PSU1".data, some 100⟩) =
      [⟨GaugeKind.power, "power_CPU_TRAY_PSU1".data, 100⟩] ∧
    "power_CPU_TRAY_PSU1".data ≠ "CPU_TRAY_PSU1".data := by
  refine ⟨?_, rfl, by decide⟩
  have hc := containsSub_cpu_of_powerCpu h1
  simp [processFuture, processResult, isPsuPowerName, hc, h2]

/-- Witness for C2's theorem at its concrete failing input. -/
theorem stray_power_prefix_kept_witness :
    processFuture (Except.ok ⟨"power_CPU_TRAY_PSU1".data, some 100⟩) =
      [⟨GaugeKind.power, "power_CPU_TRAY_PSU1".data, 100⟩] :=
  (stray_power_prefix_kept "power_CPU_TRAY_PSU1".data 100
    (by decide) (by decide)).1

/-- Claim C3: a failing thermal fetch (whatever its error) aborts the cycle
before any gauge write: the error propagates out of `collect_metrics`, no
write list is produced, and `runCycle` leaves the caller's store untouched. -/
theorem thermal_failure_aborts_cycle (e : FetchError)
    (psus : List (Except FetchError SensorResult)) (st : GaugeStore) :
    collect_metrics (Except.error e) psus = Except.error e ∧
    runCycle (Except.error e) psus st = Except.error e :=
  ⟨rfl, rfl⟩

/-- Claim C5: a sensor result with an absent reading writes no gauge entry
and is not an error: dropping it from the cycle leaves the cycle's outcome
unchanged (siblings unaffected); `query_psu` yields such a result when the
response has no `Reading` field. -/
theorem absent_reading_writes_nothing (fans : List FanEntry)
    (temps : List TempEntry)
    (before after : List (Except FetchError SensorResult)) (s : SensorResult)
    (h : s.reading = none) :
    processFuture (Except.ok s) = [] ∧
    collect_metrics (Except.ok (fans, temps)) (before ++ Except.ok s :: after) =
      collect_metrics (Except.ok (fans, temps)) (before ++ after) ∧
    ∀ (url : Str) (g : Bool), (query_psu url g none).reading = none := by
  have hp : processFuture (Except.ok s) = [] := by
    simp [processFuture, processResult, h]
  refine ⟨hp, ?_, fun url g => rfl⟩
  simp [collect_metrics, hp]

/-- Witness for C5's theorem: a PSU fetched without a `Reading` field writes
nothing and its presence does not change the cycle. -/
theorem absent_reading_writes_nothing_witness :
    processFuture (Except.ok (query_psu
      "/redfish/v1/Chassis/Miramar_Sensor/Sensors/power_PWR_PDB_PSU1".data
      true none)) = [] :=
  (absent_reading_writes_nothing [] [] [] []
    (query_psu "/redfish/v1/Chassis/Miramar_Sensor/Sensors/power_PWR_PDB_PSU1".data
      true none) rfl).1

/-- The temperature-name normalization as the spec states it: rewrite the
`TEMP_PDB_PSU` marker to `TEMP_GPU_TRAY_PSU`, otherwise the `TEMP_MB_PSU`
marker to `TEMP_CPU_TRAY_PSU`, otherwise pass the name through unchanged. -/
def normalizeTempNameSpec (m : Str) : Str :=
  if containsSub "TEMP_PDB_PSU".data m then
    pyReplace m "TEMP_PDB_PSU".data "TEMP_GPU_TRAY_PSU".data
  else if containsSub "TEMP_MB_PSU".data m then
    pyReplace m "TEMP_MB_PSU".data "TEMP_CPU_TRAY_PSU".data
  else m

/-- Claim C7: `parse_temp_name` behaves exactly as the spec's
`normalizeTempName` description, and on the three sample names it yields
`TEMP_GPU_TRAY_PSU1`, `TEMP_CPU_TRAY_PSU1` and `TEMP_AMBIENT`. -/
theorem temp_name_normalization (m : Str) :
    parse_temp_name m = normalizeTempNameSpec m ∧
    parse_temp_name "TEMP_PDB_PSU1".data = "TEMP_GPU_TRAY_PSU1".data ∧
    parse_temp_name "TEMP_MB_PSU1".data = "TEMP_CPU_TRAY_PSU1".data ∧
    parse_temp_name "TEMP_AMBIENT".data = "TEMP_AMBIENT".data :=
  ⟨rfl, by decide, by decide, by decide⟩

/-- Claim C10: a fan or temperature entry lacking `MemberId` is named
`Unknown`, which matches no classification pattern, so no gauge entry is
written for it even when its reading value is present. -/
theorem missing_member_id_dropped (f : FanEntry) (t : TempEntry)
    (hf : f.memberId = none) (ht : t.memberId = none) :
    (query_fan f).name = "Unknown".data ∧
    (query_temp t).name = "Unknown".data ∧
    processFuture (Except.ok (query_fan f)) = [] ∧
    processFuture (Except.ok (query_temp t)) = [] := by
  have hfan : parse_fan_name "Unknown".data = "Unknown".data := by decide
  have htmp : parse_temp_name "Unknown".data = "Unknown".data := by decide
  have hunk : ∀ r : Option Int, processResult ⟨"Unknown".data, r⟩ = [] := by
    intro r
    cases r with
    | none => rfl
    | some v => rfl
  have hqf : query_fan f = ⟨"Unknown".data, f.reading⟩ := by
    simp [query_fan, hf, hfan]
  have hqt : query_temp t = ⟨"Unknown".data, t.readingCelsius⟩ := by
    simp [query_temp, ht, htmp]
  refine ⟨by rw [hqf], by rw [hqt], ?_, ?_⟩
  · rw [hqf]; exact hunk f.reading
  · rw [hqt]; exact hunk t.readingCelsius

/-- Witness for C10's theorem: entries with a present reading but no
`MemberId` write nothing. -/
theorem missing_member_id_dropped_witness :
    processFuture (Except.ok (query_fan ⟨none, some 9000⟩)) = [] ∧
    processFuture (Except.ok (query_temp ⟨none, some 42⟩)) = [] := by
  have h := missing_member_id_dropped ⟨none, some 9000⟩ ⟨none, some 42⟩ rfl rfl
  exact ⟨h.2.2.1, h.2.2.2⟩

/-- The Boolean success test on a PSU future. -/
def isOkOutcome : Except FetchError SensorResult → Bool
  | Except.ok _ => true
  | Except.error _ => false

/-- Claim C4: in a cycle whose thermal fetch succeeded, failing PSU futures
are swallowed (a failed future contributes no write and never aborts the
cycle), and the cycle completes with exactly one gauge write per successful
PSU reading with a present value and a tray-qualified power name. -/
theorem psu_failures_isolated (psus : List (Except FetchError SensorResult))
    (h : ∀ s : SensorResult, Except.ok s ∈ psus →
      s.reading.isSome = true ∧ isPsuPowerName s.name = true) :
    collect_metrics (Except.ok ([], [])) psus = Except.ok (psuWrites psus) ∧
    (psuWrites psus).length = psus.countP isOkOutcome ∧
    ∀ e : FetchError, processFuture (Except.error e) = [] := by
  refine ⟨by simp [collect_metrics, psuWrites], ?_, fun e => rfl⟩
  induction psus with
  | nil => rfl
  | cons r tl ih =>
    have htl := ih (fun s hs => h s (List.mem_cons_of_mem _ hs))
    cases r with
    | error e =>
      show (psuWrites (Except.error e :: tl)).length = _
      rw [show psuWrites (Except.error e :: tl) = psuWrites tl from rfl,
        htl, List.countP_cons]
      simp [isOkOutcome]
    | ok s =>
      obtain ⟨hsome, hname⟩ := h s (List.mem_cons_self _ _)
      obtain ⟨v, hv⟩ := Option.isSome_iff_exists.mp hsome
      have hps : processFuture (Except.ok s) = [⟨GaugeKind.power, s.name, v⟩] := by
        simp [processFuture, processResult, hv, hname]
      have e1 : psuWrites (Except.ok s :: tl) =
          processFuture (Except.ok s) ++ psuWrites tl := rfl
      rw [e1, hps, List.length_append, htl, List.countP_cons]
      simp [isOkOutcome, Nat.add_comm]

/-- Five PSU futures, one failing with a network error, as in the spec's
example: the four successes carry present readings and canonical names. -/
def psuDemo : List (Except FetchError SensorResult) :=
  [Except.ok (query_psu
      "/redfish/v1/Chassis/Miramar_Sensor/Sensors/power_PWR_PDB_PSU1".data
      true (some 450)),
   Except.ok (query_psu
      "/redfish/v1/Chassis/Miramar_Sensor/Sensors/power_PWR_PDB_PSU2".data
      true (some 470)),
   Except.error FetchError.network,
   Except.ok (query_psu
      "/redfish/v1/Chassis/Miramar_Sensor/Sensors/power_PWR_MB_PSU1".data
      false (some 210)),
   Except.ok (query_psu
      "/redfish/v1/Chassis/Miramar_Sensor/Sensors/power_PWR_MB_PSU2".data
      false (some 205))]

/-- Witness for C4's theorem: with 5 PSU futures of which 1 fails with a
network error, the cycle completes and exactly 4 gauge entries are written. -/
theorem psu_failures_isolated_witness :
    collect_metrics (Except.ok ([], [])) psuDemo = Except.ok (psuWrites psuDemo) ∧
    (psuWrites psuDemo).length = 4 := by
  have h := psu_failures_isolated psuDemo (by
    intro s hs
    simp only [psuDemo, List.mem_cons, List.not_mem_nil, or_false] at hs
    rcases hs with h | h | h | h | h
    · injection h with h'; subst h'; decide
    · injection h with h'; subst h'; decide
    · exact absurd h (by simp)
    · injection h with h'; subst h'; decide
    · injection h with h'; subst h'; decide)
  exact ⟨h.1, by rw [h.2.1]; decide⟩

/-- The raw member-id marker of a known PSU, per group. -/
def psuRawMarker (g : Bool) : Str :=
  if g then "power_PWR_PDB_PSU".data else "power_PWR_MB_PSU".data

/-- The canonical tray-qualified PSU name, per group. -/
def psuCanonical (g : Bool) : Str :=
  if g then "GPU_TRAY_PSU".data else "CPU_TRAY_PSU".data

/-- Claim C8: on a known PSU marker with a digit index, `parse_psu_name`
produces the canonical tray name, and applied again to a canonical name — for
either group flag — it returns it unchanged: it is idempotent on canonical
names. -/
theorem psu_name_idempotent (d : Str) (g g' : Bool)
    (hd : ∀ c ∈ d, c.isDigit = true) :
    parse_psu_name (psuRawMarker g ++ d) g = psuCanonical g ++ d ∧
    parse_psu_name (psuCanonical g ++ d) g' = psuCanonical g ++ d ∧
    parse_psu_name (parse_psu_name (psuRawMarker g ++ d) g) g' =
      parse_psu_name (psuRawMarker g ++ d) g := by
  have hpd : 'p' ∉ d := fun hmem => absurd (hd 'p' hmem) (by decide)
  have h1 : parse_psu_name (psuRawMarker g ++ d) g = psuCanonical g ++ d := by
    cases g with
    | true =>
      show pyReplace ("power_PWR_PDB_PSU".data ++ d) "power_PWR_PDB_PSU".data
          "GPU_TRAY_PSU".data = "GPU_TRAY_PSU".data ++ d
      exact pyReplace_append_of_no_occurrence _ _ _ (by decide)
        (containsSub_eq_false (c := 'p') (by decide) hpd)
    | false =>
      show pyReplace ("power_PWR_MB_PSU".data ++ d) "power_PWR_MB_PSU".data
          "CPU_TRAY_PSU".data = "CPU_TRAY_PSU".data ++ d
      exact pyReplace_append_of_no_occurrence _ _ _ (by decide)
        (containsSub_eq_false (c := 'p') (by decide) hpd)
  have h2 : ∀ g'' : Bool,
      parse_psu_name (psuCanonical g ++ d) g'' = psuCanonical g ++ d := by
    intro g''
    have hmem : 'p' ∉ psuCanonical g ++ d := by
      intro hm
      rcases List.mem_append.mp hm with h | h
      · cases g <;> revert h <;> decide
      · exact hpd h
    cases g'' with
    | true =>
      show pyReplace (psuCanonical g ++ d) "power_PWR_PDB_PSU".data
          "GPU_TRAY_PSU".data = psuCanonical g ++ d
      exact pyReplace_no_occurrence _ _ _
        (containsSub_eq_false (c := 'p') (by decide) hmem)
    | false =>
      show pyReplace (psuCanonical g ++ d) "power_PWR_MB_PSU".data
          "CPU_TRAY_PSU".data = psuCanonical g ++ d
      exact pyReplace_no_occurrence _ _ _
        (containsSub_eq_false (c := 'p') (by decide) hmem)
  exact ⟨h1, h2 g', by rw [h1]; exact h2 g'⟩

/-- Witness for C8's theorem at index 1 on the GPU marker. -/
theorem psu_name_idempotent_witness :
    parse_psu_name (parse_psu_name "power_PWR_PDB_PSU1".data true) false =
      parse_psu_name "power_PWR_PDB_PSU1".data true := by
  have h := psu_name_idempotent "1".data true false (by decide)
  have e : psuRawMarker true ++ "1".data = "power_PWR_PDB_PSU1".data := by decide
  rw [← e]
  exact h.2.2

/-- Claim C9 counterexample: a member whose identifier contains both markers
is placed in both discovery groups, so the groups do not partition the
members. -/
theorem discovery_not_disjoint :
    (discover_psu_endpoints ["power_PWR_PDB_PWR_MB_PSU1".data]).1 =
      ["power_PWR_PDB_PWR_MB_PSU1".data] ∧
    (discover_psu_endpoints ["power_PWR_PDB_PWR_MB_PSU1".data]).2 =
      ["power_PWR_PDB_PWR_MB_PSU1".data] := by
  exact ⟨by decide, by decide⟩

/-- Claim C9 (amended): discovery applies two independent substring filters —
a member containing the power-distribution-board marker lands in the GPU
group, one containing the motherboard-PSU marker lands in the CPU group, a
member containing neither lands in neither; a member containing both markers
lands in both groups, so the groups need not be disjoint. -/
theorem discovery_filter_membership (members : List Str) (m : Str)
    (hm : m ∈ members) :
    (containsSub "power_PWR_PDB_".data m = true →
      m ∈ (discover_psu_endpoints members).1) ∧
    (containsSub "PWR_MB_PSU".data m = true →
      m ∈ (discover_psu_endpoints members).2) ∧
    (containsSub "power_PWR_PDB_".data m = false →
      m ∉ (discover_psu_endpoints members).1) ∧
    (containsSub "PWR_MB_PSU".data m = false →
      m ∉ (discover_psu_endpoints members).2) := by
  refine ⟨fun h => ?_, fun h => ?_, fun h => ?_, fun h => ?_⟩ <;>
    simp [discover_psu_endpoints, List.mem_filter, hm, h]

/-- Witness for C9's amended theorem on a concrete member list. -/
theorem discovery_filter_membership_witness :
    "power_PWR_PDB_PSU1".data ∈
      (discover_psu_endpoints
        ["power_PWR_PDB_PSU1".data, "ambient_TEMP".data]).1 :=
  (discovery_filter_membership
    ["power_PWR_PDB_PSU1".data, "ambient_TEMP".data]
    "power_PWR_PDB_PSU1".data (by decide)).1 (by decide)

/-- The Boolean suffix test holds on an exact tail. -/
theorem isSuffixOf_append_self (p t : Str) :
    List.isSuffixOf p (t ++ p) = true := by
  simp only [List.isSuffixOf, List.reverse_append]
  exact (isPrefixOf_eq_true_iff _ _).mpr ⟨t.reverse, rfl⟩

/-- The Boolean suffix test fails when the last characters differ. -/
theorem isSuffixOf_ne_last (p s : Str) (a b : Char) (hab : a ≠ b) :
    List.isSuffixOf (p ++ [a]) (s ++ [b]) = false := by
  simp [List.isSuffixOf, List.reverse_append, List.isPrefixOf,
    beq_eq_false_iff_ne, hab]

/-- The fan-name normalization exactly as the claim states it: strip one
leading `SPD_` prefix, then rewrite only one trailing `_F`/`_R` suffix; a
name with no such match passes through unchanged. -/
def normalizeFanNameSpec (m : Str) : Str :=
  let m1 := if List.isPrefixOf "SPD_".data m then m.drop 4 else m
  if List.isSuffixOf "_F".data m1 then m1.take (m1.length - 2) ++ " Front".data
  else if List.isSuffixOf "_R".data m1 then m1.take (m1.length - 2) ++ " Rear".data
  else m1

/-- Claim C6 counterexample: `parse_fan_name` replaces every occurrence of
`SPD_` and of the matched suffix marker, not only a leading prefix and a
trailing suffix: `X_SPD_Y` is changed although the claimed behaviour is
pass-through, and `A_F_F` gets its inner `_F` rewritten too. -/
theorem fan_name_counterexample :
    parse_fan_name "X_SPD_Y".data = "X_Y".data ∧
    normalizeFanNameSpec "X_SPD_Y".data = "X_SPD_Y".data ∧
    parse_fan_name "X_SPD_Y".data ≠ normalizeFanNameSpec "X_SPD_Y".data ∧
    parse_fan_name "A_F_F".data = "A Front Front".data ∧
    normalizeFanNameSpec "A_F_F".data = "A_F Front".data :=
  ⟨by decide, by decide, by decide, by decide, by decide⟩

/-- Claim C6 (amended): `parse_fan_name` removes every occurrence of `SPD_`
and, when the resulting name ends in `_F` (resp. `_R`), rewrites every
occurrence of `_F` (resp. `_R`) to `" Front"` (resp. `" Rear"`); on canonical
fan identifiers `SPD_FAN<i>_F` / `SPD_FAN<i>_R` with a digit index this gives
`FAN<i> Front` / `FAN<i> Rear`, and a name containing no `SPD_` and ending in
neither suffix passes through unchanged.  In particular `SPD_FAN1_F` maps to
`FAN1 Front` and `SPD_FAN1_R` to `FAN1 Rear`. -/
theorem fan_name_normalization (d m : Str) (hd : ∀ c ∈ d, c.isDigit = true)
    (hm1 : containsSub "SPD_".data m = false)
    (hm2 : List.isSuffixOf "_F".data m = false)
    (hm3 : List.isSuffixOf "_R".data m = false) :
    parse_fan_name ("SPD_FAN".data ++ d ++ "_F".data) =
      "FAN".data ++ d ++ " Front".data ∧
    parse_fan_name ("SPD_FAN".data ++ d ++ "_R".data) =
      "FAN".data ++ d ++ " Rear".data ∧
    parse_fan_name m = m ∧
    parse_fan_name "SPD_FAN1_F".data = "FAN1 Front".data ∧
    parse_fan_name "SPD_FAN1_R".data = "FAN1 Rear".data := by
  have hU : '_' ∉ "FAN".data ++ d := by
    intro hmem
    rcases List.mem_append.mp hmem with h | h
    · revert h; decide
    · exact absurd (hd '_' h) (by decide)
  have hSd : ∀ sfx : Str, ('S' ∉ sfx) → 'S' ∉ ("FAN".data ++ d) ++ sfx := by
    intro sfx hsfx hmem
    rcases List.mem_append.mp hmem with h | h
    · rcases List.mem_append.mp h with h2 | h2
      · revert h2; decide
      · exact absurd (hd 'S' h2) (by decide)
    · exact hsfx h
  have hstep1 : ∀ sfx : Str, ('S' ∉ sfx) →
      pyReplace (("SPD_FAN".data ++ d) ++ sfx) "SPD_".data [] =
        ("FAN".data ++ d) ++ sfx := by
    intro sfx hsfx
    have e : ("SPD_FAN".data ++ d) ++ sfx =
        "SPD_".data ++ (("FAN".data ++ d) ++ sfx) := by
      rw [show ("SPD_FAN".data : Str) = "SPD_".data ++ "FAN".data from rfl]
      simp [List.append_assoc]
    rw [e]
    simpa using pyReplace_append_of_no_occurrence "SPD_".data
      (("FAN".data ++ d) ++ sfx) [] (by decide)
      (containsSub_eq_false (c := 'S') (by decide) (hSd sfx hsfx))
  have hF : parse_fan_name ("SPD_FAN".data ++ d ++ "_F".data) =
      "FAN".data ++ d ++ " Front".data := by
    simp only [parse_fan_name]
    rw [hstep1 "_F".data (by decide)]
    rw [show ("_F".data : Str) = '_' :: ['F'] from rfl]
    rw [isSuffixOf_append_self ('_' :: ['F']) ("FAN".data ++ d)]
    simp only [if_true]
    exact pyReplace_append_tail '_' ['F'] ("FAN".data ++ d) " Front".data hU
  have hR : parse_fan_name ("SPD_FAN".data ++ d ++ "_R".data) =
      "FAN".data ++ d ++ " Rear".data := by
    simp only [parse_fan_name]
    rw [hstep1 "_R".data (by decide)]
    have esplit : ("FAN".data ++ d) ++ "_R".data =
        (("FAN".data ++ d) ++ ['_']) ++ ['R'] := by
      simp [List.append_assoc, show ("_R".data : Str) = ['_'] ++ ['R'] from rfl]
    have hnsufF : List.isSuffixOf "_F".data (("FAN".data ++ d) ++ "_R".data)
        = false := by
      rw [esplit, show ("_F".data : Str) = ['_'] ++ ['F'] from rfl]
      exact isSuffixOf_ne_last ['_'] (("FAN".data ++ d) ++ ['_']) 'F' 'R'
        (by decide)
    rw [hnsufF]
    simp only [Bool.false_eq_true, if_false]
    rw [isSuffixOf_append_self ['_', 'R'] (['F', 'A', 'N'] ++ d)]
    simp only [if_true]
    exact pyReplace_append_tail '_' ['R'] (['F', 'A', 'N'] ++ d)
      [' ', 'R', 'e', 'a', 'r'] hU
  have hpass : parse_fan_name m = m := by
    simp only [parse_fan_name]
    rw [pyReplace_no_occurrence _ _ _ hm1]
    simp [hm2, hm3]
  exact ⟨hF, hR, hpass, by decide, by decide⟩

/-- Witness for C6's amended theorem at index 1 and at an unmatched name. -/
theorem fan_name_normalization_witness :
    parse_fan_name ("SPD_FAN".data ++ "1".data ++ "_F".data) =
      "FAN".data ++ "1".data ++ " Front".data ∧
    parse_fan_name "PUMP7".data = "PUMP7".data := by
  have h := fan_name_normalization "1".data "PUMP7".data
    (by decide) (by decide) (by decide) (by decide)
  exact ⟨h.1, h.2.2.1⟩

end C885A
